import Mathlib

/-!
# Solcron keeper node — verification of spec claims

Shallow embedding of the `keeper-node` crate of the Solcron repository.
Timestamps (`chrono::DateTime<Utc>`) are modelled as `Int` seconds since the
epoch, so `signed_duration_since(..).num_seconds()` is exact subtraction;
monotonic `Instant`s are likewise `Int` seconds.  JSON trigger parameters
(`serde_json::Value` objects) are modelled as association lists of
`String × JsonVal`.  External library calls (Solana RPC, base58 pubkey
parsing, `Keypair::from_bytes`, `serde_json::from_slice`) are oracles passed
in as function-valued environment fields.
-/

namespace Solcron

/-- A fragment of `serde_json::Value` sufficient for trigger parameters. -/
inductive JsonVal where
  | num (n : Int)
  | str (s : String)
  | bool (b : Bool)
  | null
deriving DecidableEq, Repr

/-- `Value::as_i64`: succeeds only on integers in `i64` range. -/
def JsonVal.asI64 : JsonVal → Option Int
  | .num n => if -(2 ^ 63) ≤ n ∧ n < 2 ^ 63 then some n else none
  | _ => none

/-- `Value::as_str`. -/
def JsonVal.asStr : JsonVal → Option String
  | .str s => some s
  | _ => none

/-- `Value::get(key)` on a JSON object (the trigger-params case). -/
def paramsGet (params : List (String × JsonVal)) (key : String) : Option JsonVal :=
  match params.find? (fun p => p.1 == key) with
  | some p => some p.2
  | none => none

/-- `database::JobRecord` (src/keeper-node/src/database.rs). -/
structure JobRecord where
  job_id : Int
  owner : String
  target_program : String
  target_instruction : String
  trigger_type : String
  trigger_params : List (String × JsonVal)
  balance : Int
  gas_limit : Int
  min_balance : Int
  is_active : Bool
  last_checked : Option Int
  last_executed : Option Int
  execution_count : Int
  failed_count : Int
  cached_data : Option JsonVal
deriving DecidableEq, Repr

/-- `evaluator::EvaluationResult`. -/
structure EvaluationResult where
  should_execute : Bool
  reason : String
  next_check_time : Option Int
deriving DecidableEq, Repr

/-- The variants of `error::KeeperError` reachable from the embedded code,
with `toMessage` mirroring the `thiserror` display formats. -/
inductive KeeperError where
  | configError (s : String)
  | rpcError (s : String)
  | invalidTrigger (s : String)
  | invalidJob (s : String)
  | internalError (s : String)
deriving DecidableEq, Repr

/-- `Display` for `KeeperError` (`#[error(..)]` attributes in error.rs). -/
def KeeperError.toMessage : KeeperError → String
  | .configError s => "Configuration error: " ++ s
  | .rpcError s => "RPC error: " ++ s
  | .invalidTrigger s => "Invalid trigger condition: " ++ s
  | .invalidJob s => "Invalid job: " ++ s
  | .internalError s => "Internal error: " ++ s

/-- Decidable equality for `Except` results (for concrete evaluations). -/
instance {ε α : Type} [DecidableEq ε] [DecidableEq α] : DecidableEq (Except ε α)
  | .ok a, .ok b =>
    if h : a = b then .isTrue (by rw [h]) else .isFalse (fun hh => h (Except.ok.inj hh))
  | .error e, .error f =>
    if h : e = f then .isTrue (by rw [h]) else .isFalse (fun hh => h (Except.error.inj hh))
  | .ok _, .error _ => .isFalse (fun hh => Except.noConfusion hh)
  | .error _, .ok _ => .isFalse (fun hh => Except.noConfusion hh)

/-- Oracle environment for the evaluator: base58 pubkey parsing and
`RpcManager::get_account_data` (account modelled opaquely as `Unit`). -/
structure EvalEnv where
  parsePubkey : String → Option String
  getAccountData : String → Except KeeperError (Option Unit)

/-- Does `s` start with the pattern (char-list level)? -/
def listStarts : List Char → List Char → Bool
  | _, [] => true
  | [], _ :: _ => false
  | a :: as, b :: bs => a == b && listStarts as bs

/-- Rust `str::starts_with` (char-list level, for executable evaluation). -/
def strStarts (s pre : String) : Bool :=
  listStarts s.toList pre.toList

/-- Accumulating worker for `split_whitespace`: `acc` holds the reversed
current word. -/
def splitWSAux : List Char → List Char → List String
  | [], acc => if acc.isEmpty then [] else [String.mk acc.reverse]
  | c :: cs, acc =>
    if c.isWhitespace then
      (if acc.isEmpty then [] else [String.mk acc.reverse]) ++ splitWSAux cs []
    else
      splitWSAux cs (c :: acc)

/-- Rust `str::split_whitespace`: maximal non-whitespace runs, no empties. -/
def splitWhitespace (s : String) : List String :=
  splitWSAux s.toList []

/-- Decimal digit accumulation for `parse::<u64>` (digits only). -/
def parseNatList : List Char → Nat → Option Nat
  | [], acc => some acc
  | c :: cs, acc =>
    if c.isDigit then parseNatList cs (acc * 10 + (c.toNat - 48)) else none

/-- Rust `str::parse::<u64>()` (digits only — a leading `+` is not
modelled — and the value must fit in 64 bits). -/
def parseU64 (s : String) : Option Nat :=
  match s.toList with
  | [] => none
  | cs =>
    match parseNatList cs 0 with
    | some n => if n < 2 ^ 64 then some n else none
    | none => none

/-- Rust `str::contains`: the pattern occurs as a contiguous substring. -/
def listHasSub (pat : List Char) : List Char → Bool
  | [] => listStarts [] pat
  | c :: rest => listStarts (c :: rest) pat || listHasSub pat rest

/-- Rust `str::contains` lifted to `String`. -/
def strContains (s pat : String) : Bool :=
  listHasSub pat.toList s.toList

/-- `TriggerEvaluator::evaluate_balance_condition`
(src/keeper-node/src/evaluator.rs lines 260-275).  `job.balance as u64`
is the two's-complement wrap of the `i64` balance. -/
def evaluateBalanceCondition (job : JobRecord) (condition : String) :
    Except KeeperError (Bool × String) :=
  match splitWhitespace condition with
  | [_, p1, p2] =>
    match parseU64 p2 with
    | none => .error (.invalidTrigger "Invalid balance threshold")
    | some threshold =>
      let currentBalance : Nat := (job.balance % (2 ^ 64 : Int)).toNat
      .ok (decide (currentBalance > threshold),
        "Balance " ++ toString currentBalance ++ " " ++ p1 ++ " " ++ toString threshold)
  | _ => .ok (false, "Invalid balance condition format")

/-- `TriggerEvaluator::evaluate_account_exists_condition` (evaluator.rs 277-293). -/
def evaluateAccountExists (env : EvalEnv) (condition : String) :
    Except KeeperError (Bool × String) :=
  if strStarts condition "account_exists:" then
    let pubkeyStr := String.mk (condition.toList.drop "account_exists:".toList.length)
    match env.parsePubkey pubkeyStr with
    | none => .error (.invalidTrigger "Invalid public key")
    | some key =>
      match env.getAccountData key with
      | .ok (some _) => .ok (true, "Account exists")
      | .ok none => .ok (false, "Account does not exist")
      | .error _ => .ok (false, "Error checking account")
  else
    .error (.invalidTrigger "Invalid account_exists format")

/-- `TriggerEvaluator::evaluate_token_balance_condition` (evaluator.rs 295-300). -/
def evaluateTokenBalanceCondition : Except KeeperError (Bool × String) :=
  .ok (true, "Token condition evaluation placeholder")

/-- `TriggerEvaluator::evaluate_condition` (evaluator.rs 234-258). -/
def evaluateCondition (env : EvalEnv) (job : JobRecord) (condition : String) :
    Except KeeperError (Bool × String) :=
  if strStarts condition "balance >" then
    evaluateBalanceCondition job condition
  else if strStarts condition "account_exists:" then
    evaluateAccountExists env condition
  else if strContains condition "token_balance >" then
    evaluateTokenBalanceCondition
  else
    .ok (true, "Unknown condition - defaulting to true")

/-- `TriggerEvaluator::evaluate_time_trigger` (evaluator.rs 61-105). -/
def evaluateTimeTrigger (job : JobRecord) (now : Int) :
    Except KeeperError EvaluationResult :=
  match (paramsGet job.trigger_params "interval").bind JsonVal.asI64 with
  | none => .error (.invalidTrigger "Missing or invalid interval in time trigger")
  | some intervalSeconds =>
    let should_execute : Bool :=
      match job.last_executed with
      | some lastExecuted => decide (now - lastExecuted ≥ intervalSeconds)
      | none => true
    let next_check_time : Option Int :=
      if should_execute then
        none
      else
        match job.last_executed with
        | some lastExecuted => some (lastExecuted + intervalSeconds)
        | none => some (now + intervalSeconds)
    let reason : String :=
      if should_execute then
        "Time interval elapsed"
      else
        "Waiting for interval (" ++ toString intervalSeconds ++ "s)"
    .ok { should_execute, reason, next_check_time }

/-- `TriggerEvaluator::evaluate_conditional_trigger` (evaluator.rs 107-133). -/
def evaluateConditionalTrigger (env : EvalEnv) (job : JobRecord) (now : Int) :
    Except KeeperError EvaluationResult :=
  match (paramsGet job.trigger_params "condition").bind JsonVal.asStr with
  | none => .error (.invalidTrigger "Missing condition in conditional trigger")
  | some condition => do
    let result ← evaluateCondition env job condition
    pure { should_execute := result.1, reason := result.2,
           next_check_time := some (now + 60) }

/-- `TriggerEvaluator::evaluate_log_trigger` (evaluator.rs 135-167). -/
def evaluateLogTrigger (job : JobRecord) (now : Int) :
    Except KeeperError EvaluationResult :=
  match (paramsGet job.trigger_params "event_signature").bind JsonVal.asStr with
  | none => .error (.invalidTrigger "Missing event_signature in log trigger")
  | some _ =>
    let should_execute : Bool :=
      job.last_executed.isNone ||
        (match job.last_executed with
         | some t => decide (now - t > 300)
         | none => false)
    .ok { should_execute,
          reason := if should_execute then "Event condition met" else "Waiting for event",
          next_check_time := some (now + 30) }

/-- `TriggerEvaluator::evaluate_hybrid_trigger` (evaluator.rs 169-232).
The mutable `should_execute`/`reasons` accumulation is rendered as three
per-sub-check pairs combined in source order. -/
def evaluateHybridTrigger (env : EvalEnv) (job : JobRecord) (now : Int) :
    Except KeeperError EvaluationResult :=
  let timeCondition := (paramsGet job.trigger_params "time_interval").bind JsonVal.asI64
  let customCondition := (paramsGet job.trigger_params "condition").bind JsonVal.asStr
  let eventSignature := (paramsGet job.trigger_params "event_signature").bind JsonVal.asStr
  let timePart : Bool × List String :=
    match timeCondition with
    | none => (true, [])
    | some interval =>
      let timeCheck : Bool :=
        match job.last_executed with
        | some lastExecuted => decide (now - lastExecuted ≥ interval)
        | none => true
      if timeCheck then
        (true, ["Time interval met"])
      else
        (false, ["Time interval not met (" ++ toString interval ++ "s)"])
  do
  let condPart : Bool × List String ←
    match customCondition with
    | none => pure (true, [])
    | some condition => do
      let r ← evaluateCondition env job condition
      pure (r.1, [r.2])
  let eventPart : Bool × List String :=
    match eventSignature with
    | none => (true, [])
    | some _ =>
      let eventCheck : Bool :=
        job.last_executed.isNone ||
          (match job.last_executed with
           | some t => decide (now - t > 60)
           | none => false)
      if eventCheck then
        (true, ["Event condition met"])
      else
        (false, ["Event condition not met"])
  pure { should_execute := timePart.1 && condPart.1 && eventPart.1,
         reason := String.intercalate "; " (timePart.2 ++ condPart.2 ++ eventPart.2),
         next_check_time := some (now + 30) }

/-- `TriggerEvaluator::evaluate_job` (evaluator.rs 24-59). -/
def evaluateJob (env : EvalEnv) (job : JobRecord) (now : Int) :
    Except KeeperError EvaluationResult :=
  if !job.is_active then
    .ok { should_execute := false, reason := "Job is not active", next_check_time := none }
  else if job.balance ≤ job.min_balance then
    .ok { should_execute := false, reason := "Insufficient balance", next_check_time := none }
  else
    match job.trigger_type with
    | "time" => evaluateTimeTrigger job now
    | "conditional" => evaluateConditionalTrigger env job now
    | "log" => evaluateLogTrigger job now
    | "hybrid" => evaluateHybridTrigger env job now
    | other =>
      .ok { should_execute := false,
            reason := "Unknown trigger type: " ++ other,
            next_check_time := none }

/-! ## Persistence layer (src/keeper-node/src/database.rs)

The `jobs` table is modelled as a list of stored rows; `job_id` is the
primary key.  `created_at`/`updated_at` are the two timestamp columns not
surfaced in `JobRecord`. -/

/-- One row of the `jobs` table. -/
structure StoredJob where
  jrec : JobRecord
  created_at : Int
  updated_at : Int
deriving DecidableEq, Repr

/-- `Database::upsert_job` (database.rs 134-177).  The INSERT column list
omits `last_checked` (it defaults to NULL), and the `ON CONFLICT .. DO
UPDATE` clause updates every other `JobRecord` column plus `updated_at`
but not `last_checked` or `created_at`. -/
def upsertJob (db : List StoredJob) (j : JobRecord) (now : Int) : List StoredJob :=
  match db.find? (fun row => row.jrec.job_id == j.job_id) with
  | some _ =>
    db.map (fun row =>
      if row.jrec.job_id == j.job_id then
        { jrec := { j with last_checked := row.jrec.last_checked },
          created_at := row.created_at, updated_at := now }
      else row)
  | none =>
    db ++ [{ jrec := { j with last_checked := none }, created_at := now, updated_at := now }]

/-- Insertion into a list sorted by the boolean "less or equal" `le`. -/
def insertByLe (le : StoredJob → StoredJob → Bool) (a : StoredJob) :
    List StoredJob → List StoredJob
  | [] => [a]
  | b :: bs => if le a b then a :: b :: bs else b :: insertByLe le a bs

/-- Insertion sort by `le`. -/
def sortByLe (le : StoredJob → StoredJob → Bool) (l : List StoredJob) : List StoredJob :=
  l.foldr (insertByLe le) []

/-- `ORDER BY last_checked ASC NULLS FIRST`. -/
def lastCheckedLe (a b : StoredJob) : Bool :=
  match a.jrec.last_checked, b.jrec.last_checked with
  | none, _ => true
  | some _, none => false
  | some x, some y => decide (x ≤ y)

/-- `Database::get_active_jobs` (database.rs 179-215): all `is_active`
rows, ordered by `last_checked ASC NULLS FIRST`, projected onto the
`JobRecord` columns (which exclude `created_at`/`updated_at`). -/
def getActiveJobs (db : List StoredJob) : List JobRecord :=
  (sortByLe lastCheckedLe (db.filter (fun row => row.jrec.is_active))).map (fun row => row.jrec)

/-- `keeper_stats` row (database.rs). -/
structure KeeperStats where
  successful_executions : Nat
  failed_executions : Nat
  total_fees_earned : Int
deriving DecidableEq, Repr

/-- `Database::update_keeper_stats` (database.rs 297-327): additive upsert
keyed on `date`; a success inserts/increments `successful_executions` and
adds the fee, a failure inserts/increments `failed_executions` only. -/
def updateKeeperStats (stats : List (Int × KeeperStats)) (date : Int)
    (success : Bool) (feeEarned : Int) : List (Int × KeeperStats) :=
  if success then
    match stats.find? (fun p => p.1 == date) with
    | some _ =>
      stats.map (fun p =>
        if p.1 == date then
          (p.1, { p.2 with successful_executions := p.2.successful_executions + 1,
                           total_fees_earned := p.2.total_fees_earned + feeEarned })
        else p)
    | none =>
      stats ++ [(date, { successful_executions := 1, failed_executions := 0,
                         total_fees_earned := feeEarned })]
  else
    match stats.find? (fun p => p.1 == date) with
    | some _ =>
      stats.map (fun p =>
        if p.1 == date then
          (p.1, { p.2 with failed_executions := p.2.failed_executions + 1 })
        else p)
    | none =>
      stats ++ [(date, { successful_executions := 0, failed_executions := 1,
                         total_fees_earned := 0 })]

/-! ## Monitor job cache (src/keeper-node/src/monitor.rs) -/

/-- `monitor::CachedJob`. -/
structure CachedJob where
  job : JobRecord
  last_evaluation : Int
  next_check_time : Option Int
  evaluation_count : Nat
  consecutive_failures : Nat
deriving DecidableEq, Repr

/-- The `HashMap<i64, CachedJob>` job cache, as an association list. -/
abbrev JobCache := List (Int × CachedJob)

/-- Step 1 of `JobMonitor::refresh_job_cache` (monitor.rs 282-299): for each
freshly loaded active job, overwrite the `job` field of an existing cache
entry (keeping its counters) or insert a fresh `CachedJob`. -/
def refreshStep (now : Int) (cache : JobCache) (job : JobRecord) : JobCache :=
  match cache.find? (fun p => p.1 == job.job_id) with
  | some _ =>
    cache.map (fun p => if p.1 == job.job_id then (p.1, { p.2 with job := job }) else p)
  | none =>
    cache ++ [(job.job_id, { job := job, last_evaluation := now, next_check_time := none,
                             evaluation_count := 0, consecutive_failures := 0 })]

/-- `JobMonitor::refresh_job_cache` (monitor.rs 275-311): merge the freshly
loaded active jobs into the cache, then retain entries whose cached record
is active or whose id occurs in `active_job_ids` — a set computed from the
post-merge *cache contents*, not from the database result. -/
def refreshJobCache (cache : JobCache) (activeJobs : List JobRecord) (now : Int) : JobCache :=
  let cache1 := activeJobs.foldl (refreshStep now) cache
  let activeJobIds : List Int :=
    (cache1.filter (fun p => p.2.job.is_active)).map (fun p => p.2.job.job_id)
  cache1.filter (fun p => p.2.job.is_active || activeJobIds.contains p.1)

/-! ## Executor priority queue (src/keeper-node/src/executor.rs, monitor.rs) -/

/-- `monitor::ExecutionPriority` with its Rust discriminants. -/
inductive ExecutionPriority where
  | low
  | normal
  | high
  | critical
deriving DecidableEq, Repr

/-- The numeric discriminant (`Low = 0 .. Critical = 3`), which is also the
order of the derived Rust `Ord` (declaration order). -/
def ExecutionPriority.rank : ExecutionPriority → Nat
  | .low => 0
  | .normal => 1
  | .high => 2
  | .critical => 3

/-- `monitor::ExecutionRequest`. -/
structure ExecutionRequest where
  job : JobRecord
  reason : String
  priority : ExecutionPriority
deriving DecidableEq, Repr

/-- `executor::PrioritizedExecution` (queued_at is a monotonic instant). -/
structure PrioritizedExecution where
  request : ExecutionRequest
  queued_at : Int
deriving DecidableEq, Repr

/-- `Ord for PrioritizedExecution` (executor.rs 51-57): priority first, then
`other.queued_at.cmp(&self.queued_at)` so that older requests are greater. -/
def PrioritizedExecution.cmp (a b : PrioritizedExecution) : Ordering :=
  (compare a.request.priority.rank b.request.priority.rank).then (compare b.queued_at a.queued_at)

/-- `BinaryHeap::pop` on the execution queue: removes a greatest element
w.r.t. `PrioritizedExecution.cmp` (the heap's element type's `Ord`). -/
def heapPop : List PrioritizedExecution →
    Option (PrioritizedExecution × List PrioritizedExecution)
  | [] => none
  | x :: xs =>
    match heapPop xs with
    | none => some (x, [])
    | some (m, rest) =>
      if PrioritizedExecution.cmp x m = .lt then some (m, x :: rest) else some (x, xs)

/-! ## RPC manager (src/keeper-node/src/rpc.rs) -/

/-- `rpc::RpcClientWrapper` health state (the `Arc<RpcClient>` itself is
identified by the wrapper's position in the client list). -/
structure RpcClientWrapper where
  url : String
  is_healthy : Bool
  last_error : Option Int
  request_count : Nat
  error_count : Nat
deriving DecidableEq, Repr

/-- `error_count as f64 / request_count as f64 > 0.1` on natural counts:
division by zero yields `+inf` (the numerator is ≥ 1 whenever this is
evaluated), which exceeds `0.1`; otherwise the comparison is the exact
rational one. -/
def errorRateExceeded (errorCount requestCount : Nat) : Bool :=
  requestCount == 0 || decide (10 * errorCount > requestCount)

/-- `RpcClientWrapper::mark_error` (rpc.rs 44-53). -/
def RpcClientWrapper.markError (w : RpcClientWrapper) (now : Int) : RpcClientWrapper :=
  let ec := w.error_count + 1
  { w with
    error_count := ec,
    last_error := some now,
    is_healthy :=
      if decide (ec > 5) && errorRateExceeded ec w.request_count then false else w.is_healthy }

/-- `RpcClientWrapper::mark_success` (rpc.rs 55-65). -/
def RpcClientWrapper.markSuccess (w : RpcClientWrapper) (now : Int) : RpcClientWrapper :=
  let w := { w with request_count := w.request_count + 1 }
  match w.last_error with
  | some lastError =>
    if now - lastError > 300 then { w with is_healthy := true, error_count := 0 } else w
  | none => w

/-- `RpcClientWrapper::should_retry` (rpc.rs 67-78). -/
def RpcClientWrapper.shouldRetry (w : RpcClientWrapper) (now : Int) : Bool :=
  if w.is_healthy then
    true
  else
    match w.last_error with
    | some lastError => decide (now - lastError > 60)
    | none => true

/-- The scan loop inside `RpcManager::get_client` (rpc.rs 103-114): up to
`fuel` probes starting at `idx`, returning the first index whose wrapper
passes `should_retry` together with the advanced cursor. -/
def getClientLoop (clients : List RpcClientWrapper) (now : Int) :
    Nat → Nat → Option (Nat × Nat)
  | 0, _ => none
  | fuel + 1, idx =>
    match clients[idx]? with
    | none => none
    | some w =>
      if w.shouldRetry now then
        some (idx, (idx + 1) % clients.length)
      else
        getClientLoop clients now fuel ((idx + 1) % clients.length)

/-- `RpcManager::get_client` (rpc.rs 98-119): scan `clients.len()` wrappers
from the cursor; if none is eligible fall back to index 0 (the cursor has
then gone full circle).  Returns `(chosen index, new cursor)`. -/
def getClient (clients : List RpcClientWrapper) (currentIndex : Nat) (now : Int) :
    Nat × Nat :=
  match getClientLoop clients now clients.length currentIndex with
  | some (chosen, idx') => (chosen, idx')
  | none => (0, currentIndex)

/-- `RpcManager::mark_client_error` (rpc.rs 165-174), with the client
identified by its index in the list. -/
def markClientErrorAt (clients : List RpcClientWrapper) (i : Nat) (now : Int) :
    List RpcClientWrapper :=
  clients.modify (fun w => w.markError now) i

/-- `RpcManager::mark_client_success` (rpc.rs 155-163). -/
def markClientSuccessAt (clients : List RpcClientWrapper) (i : Nat) (now : Int) :
    List RpcClientWrapper :=
  clients.modify (fun w => w.markSuccess now) i

/-- Trace of one `execute_with_retry` run: the endpoint index selected
before each attempt, and the milliseconds slept between attempts. -/
structure RetryTrace where
  chosen : List Nat
  sleeps : List Nat
deriving DecidableEq, Repr

/-- The `for attempt in 0..=max_retries` loop of
`RpcManager::execute_with_retry` (rpc.rs 128-150).  `op k` is the outcome
of the `k`-th application of the operation; `remaining` counts the attempts
still allowed after the current one; client health state and the
round-robin cursor are threaded. -/
def retryLoop {T : Type} (op : Nat → Except KeeperError T) (now : Int) :
    (attempt remaining : Nat) → (clients : List RpcClientWrapper) → (idx : Nat) →
    RetryTrace → Except KeeperError T × RetryTrace × List RpcClientWrapper
  | attempt, remaining, clients, idx, tr =>
    let sel := getClient clients idx now
    let tr := { tr with chosen := tr.chosen ++ [sel.1] }
    match op attempt with
    | .ok v => (.ok v, tr, markClientSuccessAt clients sel.1 now)
    | .error e =>
      let clients' := markClientErrorAt clients sel.1 now
      match remaining with
      | 0 => (.error e, tr, clients')
      | r + 1 =>
        let tr := { tr with sleeps := tr.sleeps ++ [1000 * 2 ^ attempt] }
        retryLoop op now (attempt + 1) r clients' sel.2 tr

/-- `RpcManager::execute_with_retry` (rpc.rs 121-153): up to
`maxRetries + 1` attempts, base delay 1000 ms doubled per attempt, endpoint
re-selected (round-robin) before every attempt, the last error returned on
exhaustion. -/
def executeWithRetry {T : Type} (op : Nat → Except KeeperError T)
    (maxRetries : Nat) (clients : List RpcClientWrapper) (idx : Nat) (now : Int) :
    Except KeeperError T × RetryTrace × List RpcClientWrapper :=
  retryLoop op now 0 maxRetries clients idx { chosen := [], sleeps := [] }

/-! ## Job execution (src/keeper-node/src/executor.rs) -/

/-- `executor::ExecutionResult`. -/
structure ExecutionResult where
  success : Bool
  signature : Option String
  error : Option String
  gas_used : Nat
  fee_paid : Nat
deriving DecidableEq, Repr

/-- The fields of `execution.*` config used by `execute_job`
(`config.rs`: `max_retries : u32`, `retry_delay_ms : u64`,
`simulation_enabled` defaulted to true). -/
structure ExecConfig where
  simulation_enabled : Bool
  max_retries : Nat
  retry_delay_ms : Nat
deriving DecidableEq, Repr

/-- `RpcSimulateTransactionResult.value.err`, with the transaction error
carried as its Rust `Debug` rendering. -/
structure SimResult where
  err : Option String
deriving DecidableEq, Repr

/-- Oracle outcomes of the chain interactions inside
`JobExecutor::execute_job`: instruction building (PDA derivation),
`get_latest_blockhash`, `simulate_transaction`, and the `k`-th
`send_and_confirm_transaction` call (each of the latter already wraps the
RPC Manager's own nested retry). -/
structure ExecEnv where
  buildInstruction : Except KeeperError Unit
  blockhash : Except KeeperError String
  simulate : Except KeeperError SimResult
  send : Nat → Except KeeperError String

/-- Trace of one `execute_job` run: how many `send_and_confirm_transaction`
calls were made and the milliseconds slept between them. -/
structure ExecTrace where
  sendAttempts : Nat
  sleeps : List Nat
deriving DecidableEq, Repr

/-- The submit loop `for attempt in 0..config.execution.max_retries` of
`JobExecutor::execute_job` (executor.rs 280-315).  On failure the loop
stores `e.to_string()` and sleeps `retry_delay_ms * 2^attempt` unless this
was the last attempt. -/
def sendLoop (env : ExecEnv) (cfg : ExecConfig) :
    (attempt remaining : Nat) → (lastError : Option String) → ExecTrace →
    ExecutionResult × ExecTrace
  | _, 0, lastError, tr =>
    ({ success := false, signature := none, error := lastError,
       gas_used := 0, fee_paid := 0 }, tr)
  | attempt, r + 1, _, tr =>
    match env.send attempt with
    | .ok signature =>
      ({ success := true, signature := some signature, error := none,
         gas_used := 0, fee_paid := 5000 },
       { tr with sendAttempts := tr.sendAttempts + 1 })
    | .error e =>
      let tr := { tr with sendAttempts := tr.sendAttempts + 1 }
      let tr :=
        if attempt < cfg.max_retries - 1 then
          { tr with sleeps := tr.sleeps ++ [cfg.retry_delay_ms * 2 ^ attempt] }
        else tr
      sendLoop env cfg (attempt + 1) r (some e.toMessage) tr

/-- `JobExecutor::execute_job` (executor.rs 201-315): build the instruction,
fetch a blockhash, optionally simulate (a non-nil `err` in a successful
simulation aborts; a transport failure of the simulate call proceeds), then
submit with the retry loop. -/
def executeJob (env : ExecEnv) (cfg : ExecConfig) : ExecutionResult × ExecTrace :=
  match env.buildInstruction with
  | .error e =>
    ({ success := false, signature := none,
       error := some ("Failed to build instruction: " ++ e.toMessage),
       gas_used := 0, fee_paid := 0 }, { sendAttempts := 0, sleeps := [] })
  | .ok _ =>
    match env.blockhash with
    | .error e =>
      ({ success := false, signature := none,
         error := some ("Failed to get blockhash: " ++ e.toMessage),
         gas_used := 0, fee_paid := 0 }, { sendAttempts := 0, sleeps := [] })
    | .ok _ =>
      let simAbort : Option ExecutionResult :=
        if cfg.simulation_enabled then
          match env.simulate with
          | .ok sim =>
            match sim.err with
            | some simErr =>
              some { success := false, signature := none,
                     error := some ("Simulation failed: Some(" ++ simErr ++ ")"),
                     gas_used := 0, fee_paid := 0 }
            | none => none
          | .error _ => none
        else none
      match simAbort with
      | some r => (r, { sendAttempts := 0, sleeps := [] })
      | none => sendLoop env cfg 0 cfg.max_retries none { sendAttempts := 0, sleeps := [] }

/-- `database::ExecutionRecord` (the auto-generated `id` is fixed at 0 by
the caller). -/
structure ExecRecord where
  id : Int
  job_id : Int
  keeper_address : String
  timestamp : Int
  success : Bool
  signature : Option String
  error : Option String
  gas_used : Option Int
  fee_paid : Option Int
deriving DecidableEq, Repr

/-- The record built by `JobExecutor::record_execution_result`
(executor.rs 384-415) from an `ExecutionResult`. -/
def buildExecutionRecord (jobId : Int) (keeperAddress : String)
    (result : ExecutionResult) (now : Int) : ExecRecord :=
  { id := 0, job_id := jobId, keeper_address := keeperAddress, timestamp := now,
    success := result.success, signature := result.signature, error := result.error,
    gas_used := some (Int.ofNat result.gas_used),
    fee_paid := some (Int.ofNat result.fee_paid) }

/-- The `failed_executions` count stored for `date` (0 when the row is absent). -/
def failedExecutionsOn (stats : List (Int × KeeperStats)) (date : Int) : Nat :=
  match stats.find? (fun p => p.1 == date) with
  | some p => p.2.failed_executions
  | none => 0

/-- The `successful_executions` count stored for `date` (0 when absent). -/
def successfulExecutionsOn (stats : List (Int × KeeperStats)) (date : Int) : Nat :=
  match stats.find? (fun p => p.1 == date) with
  | some p => p.2.successful_executions
  | none => 0

/-! ## Keypair loading (src/keeper-node/src/executor.rs 74-88) -/

/-- Oracles for the two library decoders used by `JobExecutor::new`:
`Keypair::from_bytes` (the keypair modelled as its byte content) and
`serde_json::from_slice::<Vec<u8>>`. -/
structure KeypairOracles where
  fromBytes : List Nat → Except String (List Nat)
  parseJsonBytes : List Nat → Except String (List Nat)

/-- The keypair-decoding branch of `JobExecutor::new` (executor.rs 78-88).
Returns the decode result paired with whether JSON parsing was attempted. -/
def loadKeeperKeypair (o : KeypairOracles) (keypairData : List Nat) :
    Except String (List Nat) × Bool :=
  if keypairData.length = 64 then
    (match o.fromBytes keypairData with
     | .ok kp => .ok kp
     | .error e => .error ("Invalid keypair format: " ++ e), false)
  else
    (match o.parseJsonBytes keypairData with
     | .error e => .error ("Invalid keypair JSON: " ++ e)
     | .ok keypairJson =>
       match o.fromBytes keypairJson with
       | .ok kp => .ok kp
       | .error e => .error ("Invalid keypair data: " ++ e), true)

/-! ## Derived definitions used by the claim statements -/

/-- The time-trigger firing predicate: fires iff never executed or
`now − last_executed ≥ interval` (evaluator.rs 78-84). -/
def timeFires (lastExecuted : Option Int) (now interval : Int) : Bool :=
  match lastExecuted with
  | some t => decide (now - t ≥ interval)
  | none => true

/-- The time sub-check of the hybrid trigger (evaluator.rs 187-192). -/
def hybridTimeCheck (lastExecuted : Option Int) (now interval : Int) : Bool :=
  match lastExecuted with
  | some t => decide (now - t ≥ interval)
  | none => true

/-- The event sub-check of the hybrid trigger (evaluator.rs 214-217). -/
def hybridEventCheck (lastExecuted : Option Int) (now : Int) : Bool :=
  lastExecuted.isNone ||
    (match lastExecuted with
     | some t => decide (now - t > 60)
     | none => false)

/-- The sub-reason pushed for the hybrid time check (evaluator.rs 194-199). -/
def hybridTimeReason (lastExecuted : Option Int) (now interval : Int) : String :=
  if hybridTimeCheck lastExecuted now interval then
    "Time interval met"
  else
    "Time interval not met (" ++ toString interval ++ "s)"

/-- The sub-reason pushed for the hybrid event check (evaluator.rs 219-224). -/
def hybridEventReason (lastExecuted : Option Int) (now : Int) : String :=
  if hybridEventCheck lastExecuted now then "Event condition met" else "Event condition not met"

/-- Evaluation of the optional custom condition of a hybrid trigger:
`none` when the parameter is absent, otherwise the outcome of
`evaluate_condition`. -/
def condEval (env : EvalEnv) (job : JobRecord) :
    Option String → Except KeeperError (Option (Bool × String))
  | none => .ok none
  | some c => (evaluateCondition env job c).map some

/-- The `last_checked` column currently stored for `jobId` (`none` when the
row is absent — which is also the fresh-insert default). -/
def storedLastChecked (db : List StoredJob) (jobId : Int) : Option Int :=
  match db.find? (fun row => row.jrec.job_id == jobId) with
  | some row => row.jrec.last_checked
  | none => none

/-! ## Concrete inputs for counterexamples and witnesses -/

/-- An evaluator environment whose oracles are never consulted on the
concrete runs below. -/
def trivialEvalEnv : EvalEnv :=
  { parsePubkey := fun _ => none,
    getAccountData := fun _ => .error (.rpcError "unavailable") }

/-- A baseline active job record. -/
def baseJob : JobRecord :=
  { job_id := 1, owner := "owner", target_program := "prog",
    target_instruction := "run", trigger_type := "time",
    trigger_params := [("interval", .num 100)],
    balance := 10, gas_limit := 200000, min_balance := 0,
    is_active := true, last_checked := none, last_executed := none,
    execution_count := 0, failed_count := 0, cached_data := none }

/-- A never-executed time-trigger job (interval 100 s). -/
def c1TimeJob : JobRecord := baseJob

/-- A time-trigger job last executed at t = 0. -/
def c1WaitJob : JobRecord := { baseJob with last_executed := some 0 }

/-- An active job carrying a non-null `last_checked`. -/
def c2Job : JobRecord := { baseJob with job_id := 2, last_checked := some 5 }

/-- A pre-existing stored row for job 7 with `last_checked = 3`. -/
def c2Db : List StoredJob :=
  [{ jrec := { baseJob with job_id := 7, last_checked := some 3 },
     created_at := 0, updated_at := 0 }]

/-- A refreshed version of job 7 (new owner, still active). -/
def c2NewJob : JobRecord := { baseJob with job_id := 7, owner := "new-owner" }

/-- A cache holding job 42 (whose cached copy says `is_active = true`)
with non-zero counters. -/
def c3Cache : JobCache :=
  [(42, { job := { baseJob with job_id := 42 }, last_evaluation := 0,
          next_check_time := none, evaluation_count := 7, consecutive_failures := 2 })]

/-- Three queued executions: one Normal (t=0) and two Critical (t=1, t=2). -/
def c4Queue : List PrioritizedExecution :=
  [{ request := { job := baseJob, reason := "r", priority := .normal }, queued_at := 0 },
   { request := { job := baseJob, reason := "r", priority := .critical }, queued_at := 1 },
   { request := { job := baseJob, reason := "r", priority := .critical }, queued_at := 2 }]

/-- Two healthy RPC endpoints with zero counters. -/
def c5Clients : List RpcClientWrapper :=
  [{ url := "a", is_healthy := true, last_error := none, request_count := 0, error_count := 0 },
   { url := "b", is_healthy := true, last_error := none, request_count := 0, error_count := 0 }]

/-- An operation that fails on every attempt. -/
def c5Op : Nat → Except KeeperError Unit := fun _ => .error (.rpcError "boom")

/-- A healthy endpoint with five recorded errors and no recorded requests. -/
def c6Wrapper : RpcClientWrapper :=
  { url := "u", is_healthy := true, last_error := none, request_count := 0, error_count := 5 }

/-- Execution config: simulation on, 3 submit attempts, 500 ms base delay. -/
def c7Cfg : ExecConfig :=
  { simulation_enabled := true, max_retries := 3, retry_delay_ms := 500 }

/-- Chain environment whose simulation reports a transaction error. -/
def c7Env : ExecEnv :=
  { buildInstruction := .ok (), blockhash := .ok "bh",
    simulate := .ok { err := some "AccountNotFound" },
    send := fun _ => .error (.rpcError "unused") }

/-- Execution config: simulation off, 3 submit attempts, 500 ms base delay. -/
def c8Cfg : ExecConfig :=
  { simulation_enabled := false, max_retries := 3, retry_delay_ms := 500 }

/-- Chain environment whose every submit attempt fails. -/
def c8Env : ExecEnv :=
  { buildInstruction := .ok (), blockhash := .ok "bh",
    simulate := .ok { err := none },
    send := fun k => .error (.rpcError ("send failed " ++ toString k)) }

/-- The per-attempt submit errors of `c8Env`. -/
def c8Errs : Nat → KeeperError := fun k => .rpcError ("send failed " ++ toString k)

/-- A hybrid job with all three sub-conditions present, never executed,
with a balance condition satisfied by its own balance. -/
def c9Job : JobRecord :=
  { baseJob with
    job_id := 9, trigger_type := "hybrid", balance := 1000,
    trigger_params :=
      [("time_interval", .num 10), ("condition", .str "balance > 5"),
       ("event_signature", .str "Transfer")] }

/-- Keypair oracles: byte decoding succeeds verbatim, JSON parsing fails. -/
def c10Oracles : KeypairOracles :=
  { fromBytes := fun b => .ok b, parseJsonBytes := fun _ => .error "not json" }

/-- The entry `heapPop` extracts from `c4Queue`: Critical, queued at t=1. -/
def c4Popped : PrioritizedExecution :=
  { request := { job := baseJob, reason := "r", priority := .critical }, queued_at := 1 }

/-- The remainder after popping `c4Queue`. -/
def c4Rest : List PrioritizedExecution :=
  [{ request := { job := baseJob, reason := "r", priority := .normal }, queued_at := 0 },
   { request := { job := baseJob, reason := "r", priority := .critical }, queued_at := 2 }]

/-! ## Helper lemmas -/

/-- Unfolding of the `Ord for PrioritizedExecution` comparison. -/
theorem cmp_def (a b : PrioritizedExecution) :
    PrioritizedExecution.cmp a b =
      (compare a.request.priority.rank b.request.priority.rank).then
        (compare b.queued_at a.queued_at) := rfl

theorem heapPop_eq_none_iff (l : List PrioritizedExecution) :
    heapPop l = none ↔ l = [] := by
  cases l with
  | nil => simp [heapPop]
  | cons x xs =>
    simp only [heapPop]
    constructor
    · intro h
      split at h
      · simp at h
      · split at h <;> simp at h
    · intro h
      exact absurd h (List.cons_ne_nil x xs)

theorem heapPop_rest_subset (l : List PrioritizedExecution) (m : PrioritizedExecution)
    (rest : List PrioritizedExecution) (h : heapPop l = some (m, rest)) :
    ∀ y ∈ rest, y ∈ l := by
  induction l generalizing m rest with
  | nil => simp [heapPop] at h
  | cons x xs ih =>
    simp only [heapPop] at h
    split at h
    · simp only [Option.some.injEq, Prod.mk.injEq] at h
      obtain ⟨_, hr⟩ := h
      subst hr
      simp
    · rename_i m' rest' hx
      split at h
      · simp only [Option.some.injEq, Prod.mk.injEq] at h
        obtain ⟨hm, hr⟩ := h
        subst hr
        intro y hy
        rcases List.mem_cons.mp hy with hyx | hyr
        · exact hyx ▸ List.mem_cons_self x xs
        · exact List.mem_cons_of_mem x (ih m' rest' hx y hyr)
      · simp only [Option.some.injEq, Prod.mk.injEq] at h
        obtain ⟨hm, hr⟩ := h
        subst hr
        exact fun y hy => List.mem_cons_of_mem x hy

theorem heapPop_is_max (l : List PrioritizedExecution) (m : PrioritizedExecution)
    (rest : List PrioritizedExecution) (h : heapPop l = some (m, rest)) :
    ∀ y ∈ l, y.request.priority.rank ≤ m.request.priority.rank ∧
      (y.request.priority.rank = m.request.priority.rank → m.queued_at ≤ y.queued_at) := by
  induction l generalizing m rest with
  | nil => simp [heapPop] at h
  | cons x xs ih =>
    simp only [heapPop] at h
    split at h
    · rename_i hx
      simp only [Option.some.injEq, Prod.mk.injEq] at h
      obtain ⟨hm, hr⟩ := h
      subst hm
      have hxs : xs = [] := (heapPop_eq_none_iff xs).mp hx
      subst hxs
      intro y hy
      rcases List.mem_cons.mp hy with hyx | hyr
      · subst hyx; exact ⟨le_refl _, fun _ => le_refl _⟩
      · simp at hyr
    · rename_i m' rest' hx
      split at h
      · rename_i hc
        simp only [Option.some.injEq, Prod.mk.injEq] at h
        obtain ⟨hm, hr⟩ := h
        subst m'
        rw [cmp_def] at hc
        intro y hy
        rcases List.mem_cons.mp hy with hyx | hyr
        · subst hyx
          rcases hcr : compare y.request.priority.rank m.request.priority.rank with _ | _ | _
          · have hlt := Nat.compare_eq_lt.mp hcr
            exact ⟨Nat.le_of_lt hlt, fun he => absurd he (Nat.ne_of_lt hlt)⟩
          · have heq := Nat.compare_eq_eq.mp hcr
            rw [hcr] at hc
            simp only [Ordering.then] at hc
            have hqq : m.queued_at < y.queued_at := compare_lt_iff_lt.mp hc
            exact ⟨Nat.le_of_eq heq, fun _ => le_of_lt hqq⟩
          · rw [hcr] at hc
            simp [Ordering.then] at hc
        · exact ih m rest' hx y hyr
      · rename_i hc
        simp only [Option.some.injEq, Prod.mk.injEq] at h
        obtain ⟨hm, hr⟩ := h
        subst x
        rw [cmp_def] at hc
        intro y hy
        rcases List.mem_cons.mp hy with hyx | hyr
        · subst hyx; exact ⟨le_refl _, fun _ => le_refl _⟩
        · have hy' := ih m' rest' hx y hyr
          rcases hcr : compare m.request.priority.rank m'.request.priority.rank with _ | _ | _
          · rw [hcr] at hc; simp [Ordering.then] at hc
          · have heq := Nat.compare_eq_eq.mp hcr
            rw [hcr] at hc
            simp only [Ordering.then] at hc
            have hqq : m.queued_at ≤ m'.queued_at := not_lt.mp (fun hlt =>
              hc (compare_lt_iff_lt.mpr hlt))
            refine ⟨le_trans hy'.1 (Nat.le_of_eq heq.symm), fun he => ?_⟩
            exact le_trans hqq (hy'.2 (he.trans heq))
          · have hgt := Nat.compare_eq_gt.mp hcr
            refine ⟨le_trans hy'.1 (Nat.le_of_lt hgt), fun he => ?_⟩
            exact absurd (lt_of_le_of_lt (he ▸ hy'.1) hgt) (lt_irrefl _)

theorem mem_insertByLe (le : StoredJob → StoredJob → Bool) (a x : StoredJob)
    (l : List StoredJob) : x ∈ insertByLe le a l ↔ x = a ∨ x ∈ l := by
  induction l with
  | nil => simp [insertByLe]
  | cons b bs ih =>
    by_cases h : le a b
    · simp [insertByLe, h]
    · simp only [insertByLe, h, if_neg, Bool.false_eq_true, if_false, List.mem_cons, ih]
      tauto

theorem mem_sortByLe (le : StoredJob → StoredJob → Bool) (x : StoredJob)
    (l : List StoredJob) : x ∈ sortByLe le l ↔ x ∈ l := by
  induction l with
  | nil => simp [sortByLe]
  | cons b bs ih =>
    simp only [sortByLe, List.foldr_cons, List.mem_cons]
    rw [mem_insertByLe]
    simp only [sortByLe] at ih
    rw [ih]

/-! ## C1 — time-trigger evaluation -/

/-- C1, counterexample.  The claim asserts `next_check_time = last_executed
+ interval (or now + interval if the job was never executed)`.  On a
never-executed active time job (interval 100 s, now 0) the code fires and
returns `next_check_time = none`, not `some (0 + 100)`. -/
theorem c1_counterexample :
    evaluateJob trivialEvalEnv c1TimeJob 0 =
      .ok { should_execute := true, reason := "Time interval elapsed",
            next_check_time := none } ∧
    (none : Option Int) ≠ some (0 + 100) := by
  exact ⟨by decide, by decide⟩

/-- C1, amended.  For an active time job with sufficient balance and a
valid i64 `interval`, `evaluate_job` fires iff `last_executed` is null or
`now − last_executed ≥ interval`, and returns `next_check_time = none`
when firing and `last_executed + interval` otherwise (the never-executed
case always fires, so `now + interval` is never returned). -/
theorem c1_time_trigger (env : EvalEnv) (job : JobRecord) (now interval : Int)
    (hact : job.is_active = true) (hbal : job.min_balance < job.balance)
    (htype : job.trigger_type = "time")
    (hint : (paramsGet job.trigger_params "interval").bind JsonVal.asI64 = some interval) :
    evaluateJob env job now =
      .ok { should_execute := timeFires job.last_executed now interval,
            reason :=
              if timeFires job.last_executed now interval then "Time interval elapsed"
              else "Waiting for interval (" ++ toString interval ++ "s)",
            next_check_time :=
              if timeFires job.last_executed now interval then none
              else Option.map (fun t => t + interval) job.last_executed } := by
  have h2 : ¬(job.balance ≤ job.min_balance) := not_le.mpr hbal
  unfold evaluateJob
  rw [htype]
  simp only [hact, Bool.not_true, Bool.false_eq_true, if_false, h2]
  unfold evaluateTimeTrigger
  rw [hint]
  unfold timeFires
  cases hle : job.last_executed with
  | none => simp
  | some t =>
    by_cases hd : now - t ≥ interval
    · simp [hd]
    · simp [hd]

/-- C1 witness: a job last executed at 0 evaluated at now = 50 with
interval 100 does not fire and gets `next_check_time = some 100`. -/
theorem c1_time_trigger_witness :
    evaluateJob trivialEvalEnv c1WaitJob 50 =
      .ok { should_execute := timeFires c1WaitJob.last_executed 50 100,
            reason :=
              if timeFires c1WaitJob.last_executed 50 100 then "Time interval elapsed"
              else "Waiting for interval (" ++ toString (100 : Int) ++ "s)",
            next_check_time :=
              if timeFires c1WaitJob.last_executed 50 100 then none
              else Option.map (fun t => t + 100) c1WaitJob.last_executed } :=
  c1_time_trigger trivialEvalEnv c1WaitJob 50 100 (by decide) (by decide) (by decide)
    (by decide)

/-! ## C2 — upsert_job / get_active_jobs round trip -/

/-- C2, counterexample.  The claim asserts the job read back after
`upsert_job(j)` equals `j` in `last_checked` too.  Upserting a fresh job
whose `last_checked = some 5` stores NULL there (the INSERT column list
omits `last_checked`), so the record read back differs from `j`. -/
theorem c2_counterexample :
    getActiveJobs (upsertJob [] c2Job 0) = [{ c2Job with last_checked := none }] ∧
    ({ c2Job with last_checked := none } : JobRecord) ≠ c2Job := by
  exact ⟨by decide, by decide⟩

/-- C2, amended.  `upsert_job(j)` followed by `get_active_jobs()` yields a
record equal to `j` in every field except `updated_at` and `last_checked`
(so in particular `last_executed` and the two counters equal those of
`j`); `last_checked` is NULL when `job_id` is new and keeps the stored
row's previous value when replacing an existing row. -/
theorem c2_upsert_then_get (db : List StoredJob) (j : JobRecord) (now : Int)
    (hact : j.is_active = true) :
    ({ j with last_checked := storedLastChecked db j.job_id } : JobRecord)
      ∈ getActiveJobs (upsertJob db j now) := by
  unfold getActiveJobs upsertJob storedLastChecked
  cases hf : db.find? (fun row => row.jrec.job_id == j.job_id) with
  | none =>
    refine List.mem_map.mpr ⟨({ jrec := { j with last_checked := none },
                                created_at := now, updated_at := now } : StoredJob),
      ?_, rfl⟩
    rw [mem_sortByLe, List.mem_filter]
    exact ⟨List.mem_append_right _ (by simp), by simpa using hact⟩
  | some old =>
    have hmem : old ∈ db := List.mem_of_find?_eq_some hf
    have hpred := List.find?_some hf
    simp only [] at hpred
    refine List.mem_map.mpr ⟨({ jrec := { j with last_checked := old.jrec.last_checked },
                                created_at := old.created_at, updated_at := now } : StoredJob),
      ?_, rfl⟩
    rw [mem_sortByLe, List.mem_filter]
    exact ⟨List.mem_map.mpr ⟨old, hmem, by simp [hpred]⟩, by simpa using hact⟩

/-- C2 witness: upserting a refreshed copy of job 7 over a stored row whose
`last_checked` is 3 yields, via `get_active_jobs`, the refreshed record with
`last_checked = 3`. -/
theorem c2_upsert_then_get_witness :
    ({ c2NewJob with last_checked := storedLastChecked c2Db c2NewJob.job_id } : JobRecord)
      ∈ getActiveJobs (upsertJob c2Db c2NewJob 10) :=
  c2_upsert_then_get c2Db c2NewJob 10 (by decide)

/-! ## C3 — monitor cache refresh -/

/-- C3, failing input for the code bug.  The cache holds job 42 (cached
copy still `is_active = true`, counters 7 and 2) while `get_active_jobs()`
returns the empty list: the claim (and the spec) say the entry is dropped,
but `refresh_job_cache` leaves the cache unchanged, because its retain
predicate tests the *cached* `is_active` flag and an id set computed from
the cache itself rather than the freshly loaded active set. -/
theorem c3_refresh_keeps_departed_job :
    refreshJobCache c3Cache [] 100 = c3Cache ∧ c3Cache ≠ [] := by
  exact ⟨by decide, by decide⟩

/-! ## C10 — keypair loading dispatch -/

/-- C10.  Keypair loading dispatches on file length alone: JSON parsing is
attempted exactly when the file length differs from 64, and a 64-byte file
is always decoded as raw secret-key bytes (so a 64-byte JSON array file is
never parsed as JSON). -/
theorem c10_keypair_dispatch (o : KeypairOracles) (data : List Nat) :
    ((loadKeeperKeypair o data).2 = true ↔ data.length ≠ 64) ∧
    (data.length = 64 →
      loadKeeperKeypair o data =
        (Except.mapError (fun e => "Invalid keypair format: " ++ e) (o.fromBytes data),
         false)) := by
  unfold loadKeeperKeypair
  by_cases h : data.length = 64
  · refine ⟨by simp [h], fun _ => ?_⟩
    simp only [h, if_pos]
    cases o.fromBytes data with
    | ok kp => rfl
    | error e => rfl
  · exact ⟨by simp [h], fun hc => absurd hc h⟩

/-- C10 witness: a 64-byte file is decoded raw and JSON parsing is not
attempted. -/
theorem c10_keypair_dispatch_witness :
    (((loadKeeperKeypair c10Oracles (List.replicate 64 0)).2 = true ↔
        (List.replicate 64 (0 : Nat)).length ≠ 64) ∧
     ((List.replicate 64 (0 : Nat)).length = 64 →
       loadKeeperKeypair c10Oracles (List.replicate 64 0) =
         (Except.mapError (fun e => "Invalid keypair format: " ++ e)
            (c10Oracles.fromBytes (List.replicate 64 0)), false))) :=
  c10_keypair_dispatch c10Oracles (List.replicate 64 0)

/-! ## C4 — executor priority queue -/

/-- C4.  A pop from the execution queue never returns a request while a
strictly higher-priority request remains, and among remaining requests of
the same priority the popped one has the oldest (smallest) `queued_at`;
since `queued_at` stamps are taken at push time from a monotonic clock,
pops within one priority level observe push order. -/
theorem c4_priority_queue (l : List PrioritizedExecution) (m : PrioritizedExecution)
    (rest : List PrioritizedExecution) (h : heapPop l = some (m, rest)) :
    (∀ y ∈ rest, y.request.priority.rank ≤ m.request.priority.rank) ∧
    (∀ y ∈ rest, y.request.priority = m.request.priority → m.queued_at ≤ y.queued_at) := by
  have hmax := heapPop_is_max l m rest h
  have hsub := heapPop_rest_subset l m rest h
  refine ⟨fun y hy => (hmax y (hsub y hy)).1, fun y hy hp => ?_⟩
  exact (hmax y (hsub y hy)).2 (by rw [hp])

/-- C4 witness: popping a queue holding Normal(t=0), Critical(t=1),
Critical(t=2) returns the Critical request queued at t=1 and leaves the
other two. -/
theorem c4_priority_queue_witness :
    (∀ y ∈ c4Rest, y.request.priority.rank ≤ c4Popped.request.priority.rank) ∧
    (∀ y ∈ c4Rest, y.request.priority = c4Popped.request.priority →
      c4Popped.queued_at ≤ y.queued_at) :=
  c4_priority_queue c4Queue c4Popped c4Rest (by decide)

/-! ## C6 — RPC endpoint health -/

/-- C6.  Recording an error increments `error_count` and stamps
`last_error := now`; a healthy endpoint is marked unhealthy by that error
exactly when the new `error_count` exceeds 5 and `error_count /
request_count > 0.1` (true in particular when `request_count = 0`, where
the float quotient is `+inf`); and once unhealthy it passes `should_retry`
— i.e. becomes eligible for selection — exactly when more than 60 seconds
have passed since that `last_error`, so never earlier than 60 s after it. -/
theorem c6_endpoint_health (w : RpcClientWrapper) (now otherNow : Int) :
    (w.markError now).error_count = w.error_count + 1 ∧
    (w.markError now).last_error = some now ∧
    (w.is_healthy = true →
      ((w.markError now).is_healthy = false ↔
        (5 < w.error_count + 1 ∧
          (w.request_count = 0 ∨ w.request_count < 10 * (w.error_count + 1))))) ∧
    ((w.markError now).is_healthy = false →
      ((w.markError now).shouldRetry otherNow = true ↔ 60 < otherNow - now)) := by
  refine ⟨by simp [RpcClientWrapper.markError], by simp [RpcClientWrapper.markError], ?_, ?_⟩
  · intro hh
    simp only [RpcClientWrapper.markError, errorRateExceeded, hh]
    by_cases h5 : 5 < w.error_count + 1 <;> by_cases hr : w.request_count = 0 <;>
      by_cases h10 : w.request_count < 10 * (w.error_count + 1) <;>
      simp [h5, hr, h10]
  · intro hunh
    simp only [RpcClientWrapper.shouldRetry, RpcClientWrapper.markError,
      errorRateExceeded] at hunh ⊢
    rw [hunh]
    simp

/-- C6 witness: an endpoint with 5 prior errors and no recorded requests
turns unhealthy on the next error and is eligible again at `now' = 100 >
60` seconds after the error at 0. -/
theorem c6_endpoint_health_witness :
    (c6Wrapper.markError 0).error_count = c6Wrapper.error_count + 1 ∧
    (c6Wrapper.markError 0).last_error = some 0 ∧
    (c6Wrapper.is_healthy = true →
      ((c6Wrapper.markError 0).is_healthy = false ↔
        (5 < c6Wrapper.error_count + 1 ∧
          (c6Wrapper.request_count = 0 ∨
            c6Wrapper.request_count < 10 * (c6Wrapper.error_count + 1))))) ∧
    ((c6Wrapper.markError 0).is_healthy = false →
      ((c6Wrapper.markError 0).shouldRetry 100 = true ↔ 60 < (100 : Int) - 0)) :=
  c6_endpoint_health c6Wrapper 0 100

/-! ## C5 — RPC manager retry wrapper -/

/-- One unfolding step of the `get_client` scan loop. -/
theorem getClientLoop_succ (clients : List RpcClientWrapper) (now : Int)
    (fuel idx : Nat) :
    getClientLoop clients now (fuel + 1) idx =
      match clients[idx]? with
      | none => none
      | some w =>
        if w.shouldRetry now then some (idx, (idx + 1) % clients.length)
        else getClientLoop clients now fuel ((idx + 1) % clients.length) := rfl

/-- With every wrapper healthy, `get_client` returns the endpoint at the
cursor and advances the cursor by one (mod the pool size). -/
theorem getClient_all_healthy (clients : List RpcClientWrapper) (idx : Nat) (now : Int)
    (hidx : idx < clients.length)
    (hw : ∀ w ∈ clients, w.is_healthy = true) :
    getClient clients idx now = (idx, (idx + 1) % clients.length) := by
  have h1 : clients[idx]? = some clients[idx] := List.getElem?_eq_getElem hidx
  have h2 : (clients[idx]).shouldRetry now = true := by
    have hmem : clients[idx] ∈ clients := List.getElem_mem hidx
    simp [RpcClientWrapper.shouldRetry, hw _ hmem]
  obtain ⟨f, hf⟩ : ∃ f, clients.length = f + 1 := ⟨clients.length - 1, by omega⟩
  unfold getClient
  rw [hf, getClientLoop_succ, h1]
  simp [h2]
  rw [hf]

/-- Marking an error on one endpoint of an all-healthy pool with enough
error budget keeps every endpoint healthy and consumes one unit of
budget. -/
theorem markClientErrorAt_healthy (clients : List RpcClientWrapper) (i : Nat)
    (now : Int) (b : Nat)
    (h : ∀ w ∈ clients, w.is_healthy = true ∧ w.error_count + b + 1 ≤ 5) :
    ∀ w ∈ markClientErrorAt clients i now,
      w.is_healthy = true ∧ w.error_count + b ≤ 5 := by
  unfold markClientErrorAt
  induction clients generalizing i with
  | nil => simp [List.modify_nil]
  | cons a as ih =>
    cases i with
    | zero =>
      intro w hw
      have heq : List.modify (fun w => w.markError now) 0 (a :: as) =
          (a.markError now) :: as := rfl
      rw [heq] at hw
      have ha := h a (List.mem_cons_self _ _)
      rcases List.mem_cons.mp hw with rfl | hw2
      · constructor
        · have h5 : ¬(5 < a.error_count + 1) := by omega
          simp [RpcClientWrapper.markError, errorRateExceeded, h5, ha.1]
        · have : (a.markError now).error_count = a.error_count + 1 := by
            simp [RpcClientWrapper.markError]
          omega
      · have := h w (List.mem_cons_of_mem _ hw2)
        exact ⟨this.1, by omega⟩
    | succ n =>
      intro w hw
      have heq : List.modify (fun w => w.markError now) (n + 1) (a :: as) =
          a :: List.modify (fun w => w.markError now) n as := rfl
      rw [heq] at hw
      rcases List.mem_cons.mp hw with rfl | hw2
      · have := h w (List.mem_cons_self _ _)
        exact ⟨this.1, by omega⟩
      · exact ih n (fun v hv => h v (List.mem_cons_of_mem _ hv)) w hw2

/-- The retry loop makes at most `remaining + 1` further endpoint
selections (= attempts). -/
theorem retryLoop_attempts_le {T : Type} (op : Nat → Except KeeperError T) (now : Int) :
    ∀ (remaining attempt : Nat) (clients : List RpcClientWrapper) (idx : Nat)
      (tr : RetryTrace),
    (retryLoop op now attempt remaining clients idx tr).2.1.chosen.length ≤
      tr.chosen.length + remaining + 1 := by
  intro remaining
  induction remaining with
  | zero =>
    intro attempt clients idx tr
    unfold retryLoop
    cases op attempt <;> simp
  | succ r ih =>
    intro attempt clients idx tr
    unfold retryLoop
    cases op attempt with
    | ok v => simp
    | error e =>
      refine le_trans (ih (attempt + 1) _ _ _) ?_
      simp
      omega

/-- When every attempt fails, the retry loop runs all `remaining + 1`
attempts, returns the last error, selects endpoints round-robin from the
cursor, and sleeps `1000·2^attempt` ms between attempts. -/
theorem retryLoop_all_fail {T : Type} (op : Nat → Except KeeperError T)
    (errs : Nat → KeeperError) (now : Int) :
    ∀ (remaining attempt : Nat) (clients : List RpcClientWrapper) (idx : Nat)
      (tr : RetryTrace),
    (∀ k, k ≤ attempt + remaining → op k = .error (errs k)) →
    idx < clients.length →
    (∀ w ∈ clients, w.is_healthy = true ∧ w.error_count + remaining + 1 ≤ 5) →
    (retryLoop op now attempt remaining clients idx tr).1 =
        .error (errs (attempt + remaining)) ∧
    (retryLoop op now attempt remaining clients idx tr).2.1 =
      { chosen := tr.chosen ++
          (List.range (remaining + 1)).map (fun k => (idx + k) % clients.length),
        sleeps := tr.sleeps ++
          (List.range remaining).map (fun k => 1000 * 2 ^ (attempt + k)) } := by
  intro remaining
  induction remaining with
  | zero =>
    intro attempt clients idx tr hop hidx hinv
    have hsel := getClient_all_healthy clients idx now hidx (fun w hw => (hinv w hw).1)
    unfold retryLoop
    rw [hsel, hop attempt (by omega)]
    simp [List.range_succ, Nat.mod_eq_of_lt hidx]
  | succ r ih =>
    intro attempt clients idx tr hop hidx hinv
    have hlen0 : 0 < clients.length := by omega
    have hsel := getClient_all_healthy clients idx now hidx (fun w hw => (hinv w hw).1)
    unfold retryLoop
    rw [hsel, hop attempt (by omega)]
    have hlen' : (markClientErrorAt clients idx now).length = clients.length := by
      unfold markClientErrorAt
      exact List.length_modify _ _ _
    have hidx' : (idx + 1) % clients.length < (markClientErrorAt clients idx now).length := by
      rw [hlen']
      exact Nat.mod_lt _ hlen0
    have hinv' : ∀ w ∈ markClientErrorAt clients idx now,
        w.is_healthy = true ∧ w.error_count + r + 1 ≤ 5 := by
      have := markClientErrorAt_healthy clients idx now (r + 1)
        (fun w hw => ⟨(hinv w hw).1, by have := (hinv w hw).2; omega⟩)
      exact fun w hw => ⟨(this w hw).1, by have := (this w hw).2; omega⟩
    have hop' : ∀ k, k ≤ (attempt + 1) + r → op k = .error (errs k) := by
      intro k hk
      exact hop k (by omega)
    obtain ⟨ihL, ihR⟩ := ih (attempt + 1) (markClientErrorAt clients idx now)
      ((idx + 1) % clients.length) ⟨tr.chosen ++ [idx], tr.sleeps ++ [1000 * 2 ^ attempt]⟩
      hop' hidx' hinv'
    refine ⟨?_, ?_⟩
    · rw [ihL]
      have harith : attempt + 1 + r = attempt + (r + 1) := by omega
      rw [harith]
    · rw [ihR, hlen']
      dsimp only
      congr 1
      · rw [List.append_assoc]
        congr 1
        conv_rhs => rw [List.range_succ_eq_map]
        rw [List.map_cons, List.map_map, List.singleton_append]
        congr 1
        · simp [Nat.mod_eq_of_lt hidx]
        · apply List.map_congr_left
          intro k _
          simp only [Function.comp_apply, Nat.mod_add_mod]
          congr 1
          omega
      · rw [List.append_assoc]
        congr 1
        conv_rhs => rw [List.range_succ_eq_map]
        rw [List.map_cons, List.map_map, List.singleton_append]
        have htail : List.map (fun k => 1000 * 2 ^ (attempt + 1 + k)) (List.range r) =
            List.map ((fun k => 1000 * 2 ^ (attempt + k)) ∘ Nat.succ) (List.range r) :=
          List.map_congr_left (fun a _ => by
            simp only [Function.comp_apply]
            have he : attempt + 1 + a = attempt + Nat.succ a := by omega
            rw [he])
        rw [htail]
        simp

/-- C5.  With every attempt failing, `execute_with_retry` makes exactly
`max_retries + 1` attempts (and never more, for any operation), selects a
fresh endpoint round-robin before each attempt, sleeps `1 s · 2^k` before
retry `k+1`, and returns the error of the last attempt. -/
theorem c5_execute_with_retry {T : Type} (op : Nat → Except KeeperError T)
    (errs : Nat → KeeperError) (maxRetries : Nat) (clients : List RpcClientWrapper)
    (idx : Nat) (now : Int)
    (hfail : ∀ k, k ≤ maxRetries → op k = .error (errs k))
    (hidx : idx < clients.length)
    (hhealth : ∀ w ∈ clients, w.is_healthy = true ∧ w.error_count + maxRetries + 1 ≤ 5) :
    (executeWithRetry op maxRetries clients idx now).1 = .error (errs maxRetries) ∧
    (executeWithRetry op maxRetries clients idx now).2.1 =
      { chosen := (List.range (maxRetries + 1)).map (fun k => (idx + k) % clients.length),
        sleeps := (List.range maxRetries).map (fun k => 1000 * 2 ^ k) } ∧
    (∀ (op2 : Nat → Except KeeperError T) (clients2 : List RpcClientWrapper) (idx2 : Nat),
      (executeWithRetry op2 maxRetries clients2 idx2 now).2.1.chosen.length ≤
        maxRetries + 1) := by
  obtain ⟨hL, hR⟩ := retryLoop_all_fail op errs now maxRetries 0 clients idx
    ⟨[], []⟩ (fun k hk => hfail k (by omega)) hidx hhealth
  refine ⟨?_, ?_, ?_⟩
  · have h0 : (executeWithRetry op maxRetries clients idx now).1 =
        (retryLoop op now 0 maxRetries clients idx ⟨[], []⟩).1 := rfl
    rw [h0, hL]
    simp
  · have h0 : (executeWithRetry op maxRetries clients idx now).2.1 =
        (retryLoop op now 0 maxRetries clients idx ⟨[], []⟩).2.1 := rfl
    rw [h0, hR]
    simp
  · intro op2 clients2 idx2
    have hb : (executeWithRetry op2 maxRetries clients2 idx2 now).2.1.chosen.length =
        (retryLoop op2 now 0 maxRetries clients2 idx2 ⟨[], []⟩).2.1.chosen.length := rfl
    rw [hb]
    have := retryLoop_attempts_le op2 now maxRetries 0 clients2 idx2 ⟨[], []⟩
    simpa using this

/-- C5 witness: two healthy endpoints, `max_retries = 2`, all attempts
failing — three attempts on endpoints 0, 1, 0 with sleeps 1000 ms and
2000 ms, returning the last error. -/
theorem c5_execute_with_retry_witness :
    (executeWithRetry c5Op 2 c5Clients 0 0).1 = .error (.rpcError "boom") ∧
    (executeWithRetry c5Op 2 c5Clients 0 0).2.1 =
      { chosen := (List.range 3).map (fun k => (0 + k) % c5Clients.length),
        sleeps := (List.range 2).map (fun k => 1000 * 2 ^ k) } ∧
    (∀ (op2 : Nat → Except KeeperError Unit) (clients2 : List RpcClientWrapper)
      (idx2 : Nat),
      (executeWithRetry op2 2 clients2 idx2 0).2.1.chosen.length ≤ 3) :=
  c5_execute_with_retry c5Op (fun _ => .rpcError "boom") 2 c5Clients 0 0
    (fun _ _ => rfl) (by decide) (by decide)

/-! ## C7 / C8 — executor submit pipeline -/

/-- Updating the stats row keyed `today` commutes with `find?` on that key. -/
theorem find?_update (l : List (Int × KeeperStats)) (today : Int)
    (f : Int × KeeperStats → KeeperStats) :
    (l.map (fun p => if p.1 == today then (p.1, f p) else p)).find?
        (fun p => p.1 == today) =
      (l.find? (fun p => p.1 == today)).map (fun p => (p.1, f p)) := by
  induction l with
  | nil => simp
  | cons a as ih =>
    by_cases h : (a.1 == today) = true
    · rw [List.map_cons, if_pos h]
      have hL : List.find? (fun p => p.1 == today)
          ((a.1, f a) :: (as.map (fun p => if p.1 == today then (p.1, f p) else p))) =
            some (a.1, f a) := by
        rw [List.find?_cons]
        simp [h]
      have hR : List.find? (fun p => p.1 == today) (a :: as) = some a := by
        rw [List.find?_cons]
        simp [h]
      rw [hL, hR]
      simp
    · rw [List.map_cons, if_neg h]
      have hL : List.find? (fun p => p.1 == today)
          (a :: (as.map (fun p => if p.1 == today then (p.1, f p) else p))) =
            List.find? (fun p => p.1 == today)
              (as.map (fun p => if p.1 == today then (p.1, f p) else p)) := by
        rw [List.find?_cons]
        simp [h]
      have hR : List.find? (fun p => p.1 == today) (a :: as) =
          List.find? (fun p => p.1 == today) as := by
        rw [List.find?_cons]
        simp [h]
      rw [hL, hR, ih]

/-- A failed execution bumps `failed_executions` for its date by exactly one
and leaves `successful_executions` unchanged. -/
theorem updateKeeperStats_failed (stats : List (Int × KeeperStats)) (today fee : Int) :
    failedExecutionsOn (updateKeeperStats stats today false fee) today =
      failedExecutionsOn stats today + 1 ∧
    successfulExecutionsOn (updateKeeperStats stats today false fee) today =
      successfulExecutionsOn stats today := by
  unfold updateKeeperStats failedExecutionsOn successfulExecutionsOn
  simp only [Bool.false_eq_true, if_false]
  cases hf : stats.find? (fun p => p.1 == today) with
  | none =>
    rw [List.find?_append, hf]
    simp
  | some entry =>
    rw [find?_update, hf]
    simp

/-- The submit loop makes at most `remaining` further send attempts. -/
theorem sendLoop_attempts_le (env : ExecEnv) (cfg : ExecConfig) :
    ∀ (remaining attempt : Nat) (lastE : Option String) (tr : ExecTrace),
    (sendLoop env cfg attempt remaining lastE tr).2.sendAttempts ≤
      tr.sendAttempts + remaining := by
  intro remaining
  induction remaining with
  | zero =>
    intro attempt lastE tr
    unfold sendLoop
    simp
  | succ r ih =>
    intro attempt lastE tr
    unfold sendLoop
    cases env.send attempt with
    | ok sig => simp
    | error e =>
      by_cases hc : attempt < cfg.max_retries - 1
      · simp only [hc, if_true]
        refine le_trans (ih (attempt + 1) _ _) ?_
        simp
        omega
      · simp only [hc, if_false]
        refine le_trans (ih (attempt + 1) _ _) ?_
        simp
        omega

/-- When every send attempt fails, the submit loop runs all attempts, the
result carries the last attempt's rendered error, and the sleeps double
from `retry_delay_ms` (no sleep after the final attempt). -/
theorem sendLoop_all_fail (env : ExecEnv) (cfg : ExecConfig) (errs : Nat → KeeperError) :
    ∀ (remaining attempt : Nat) (lastE : Option String) (tr : ExecTrace),
    attempt + remaining = cfg.max_retries →
    (∀ k, k < cfg.max_retries → env.send k = .error (errs k)) →
    sendLoop env cfg attempt remaining lastE tr =
      ({ success := false, signature := none,
         error := if remaining = 0 then lastE
           else some (errs (cfg.max_retries - 1)).toMessage,
         gas_used := 0, fee_paid := 0 },
       { sendAttempts := tr.sendAttempts + remaining,
         sleeps := tr.sleeps ++ (List.range (remaining - 1)).map
           (fun j => cfg.retry_delay_ms * 2 ^ (attempt + j)) }) := by
  intro remaining
  induction remaining with
  | zero =>
    intro attempt lastE tr htot hfail
    unfold sendLoop
    simp
  | succ r ih =>
    intro attempt lastE tr htot hfail
    unfold sendLoop
    rw [hfail attempt (by omega)]
    cases r with
    | zero =>
      have hc : ¬(attempt < cfg.max_retries - 1) := by omega
      simp only [hc, if_false]
      rw [ih (attempt + 1) (some (errs attempt).toMessage)
        { tr with sendAttempts := tr.sendAttempts + 1 } (by omega) hfail]
      have hat : attempt = cfg.max_retries - 1 := by omega
      simp [hat]
    | succ j =>
      have hc : attempt < cfg.max_retries - 1 := by omega
      simp only [hc, if_true]
      rw [ih (attempt + 1) (some (errs attempt).toMessage)
        { sendAttempts := tr.sendAttempts + 1,
          sleeps := tr.sleeps ++ [cfg.retry_delay_ms * 2 ^ attempt] } (by omega) hfail]
      refine congrArg _ ?_
      dsimp only
      congr 1
      · omega
      · rw [List.append_assoc]
        congr 1
        conv_rhs => rw [Nat.succ_sub_one, List.range_succ_eq_map]
        rw [List.map_cons, List.map_map, List.singleton_append, Nat.succ_sub_one]
        have htail : List.map (fun i => cfg.retry_delay_ms * 2 ^ (attempt + 1 + i))
            (List.range j) =
            List.map ((fun i => cfg.retry_delay_ms * 2 ^ (attempt + i)) ∘ Nat.succ)
              (List.range j) :=
          List.map_congr_left (fun a _ => by
            simp only [Function.comp_apply]
            have he : attempt + 1 + a = attempt + Nat.succ a := by omega
            rw [he])
        rw [htail]
        simp

/-- `execute_job` never makes more than `execution.max_retries` send
attempts, whatever the chain environment does. -/
theorem executeJob_attempts_le (env : ExecEnv) (cfg : ExecConfig) :
    (executeJob env cfg).2.sendAttempts ≤ cfg.max_retries := by
  unfold executeJob
  split
  · simp
  · split
    · simp
    · dsimp only
      repeat' split
      all_goals first
        | simp
        | exact le_trans (sendLoop_attempts_le env cfg cfg.max_retries 0 none ⟨0, []⟩)
            (by simp)

/-- C7.  With simulation enabled, a successful simulate call reporting a
non-nil `err` aborts the execution before any `send_and_confirm` call: the
result is a failure with null signature whose error message begins
"Simulation failed" (exhibited by the explicit concatenation), the derived
`ExecutionRecord` is that failure, and recording it bumps today's
`failed_executions` by exactly one, leaving `successful_executions`
unchanged.  A transport failure of the simulate call itself does not
abort: execution proceeds to the submit loop. -/
theorem c7_simulation_failure (cfg : ExecConfig) (env : ExecEnv)
    (stats : List (Int × KeeperStats)) (today now jobId : Int) (keeper : String)
    (simErr : String)
    (hsimEn : cfg.simulation_enabled = true)
    (hbuild : env.buildInstruction = .ok ())
    (hbh : ∃ b, env.blockhash = .ok b) :
    (env.simulate = .ok { err := some simErr } →
      executeJob env cfg =
        ({ success := false, signature := none,
           error := some ("Simulation failed: Some(" ++ simErr ++ ")"),
           gas_used := 0, fee_paid := 0 },
         { sendAttempts := 0, sleeps := [] }) ∧
      buildExecutionRecord jobId keeper (executeJob env cfg).1 now =
        { id := 0, job_id := jobId, keeper_address := keeper, timestamp := now,
          success := false, signature := none,
          error := some ("Simulation failed: Some(" ++ simErr ++ ")"),
          gas_used := some 0, fee_paid := some 0 } ∧
      failedExecutionsOn (updateKeeperStats stats today false 0) today =
        failedExecutionsOn stats today + 1 ∧
      successfulExecutionsOn (updateKeeperStats stats today false 0) today =
        successfulExecutionsOn stats today) ∧
    (∀ e2, env.simulate = .error e2 →
      executeJob env cfg =
        sendLoop env cfg 0 cfg.max_retries none { sendAttempts := 0, sleeps := [] }) := by
  obtain ⟨b, hb⟩ := hbh
  constructor
  · intro hsim
    have hexec : executeJob env cfg =
        ({ success := false, signature := none,
           error := some ("Simulation failed: Some(" ++ simErr ++ ")"),
           gas_used := 0, fee_paid := 0 },
         { sendAttempts := 0, sleeps := [] }) := by
      unfold executeJob
      split
      · rename_i e heq
        rw [hbuild] at heq
        simp at heq
      · split
        · rename_i e heq
          rw [hb] at heq
          simp at heq
        · dsimp only
          simp [hsimEn, hsim]
    refine ⟨hexec, ?_, ?_, ?_⟩
    · rw [hexec]
      simp [buildExecutionRecord]
    · exact (updateKeeperStats_failed stats today 0).1
    · exact (updateKeeperStats_failed stats today 0).2
  · intro e2 hsim
    unfold executeJob
    split
    · rename_i e heq
      rw [hbuild] at heq
      simp at heq
    · split
      · rename_i e heq
        rw [hb] at heq
        simp at heq
      · dsimp only
        simp [hsimEn, hsim]

/-- C7 witness: the concrete environment whose simulation reports
"AccountNotFound" aborts with zero send attempts and a one-step bump of
`failed_executions`. -/
theorem c7_simulation_failure_witness :
    (c7Env.simulate = .ok { err := some "AccountNotFound" } →
      executeJob c7Env c7Cfg =
        ({ success := false, signature := none,
           error := some ("Simulation failed: Some(" ++ "AccountNotFound" ++ ")"),
           gas_used := 0, fee_paid := 0 },
         { sendAttempts := 0, sleeps := [] }) ∧
      buildExecutionRecord 9 "K" (executeJob c7Env c7Cfg).1 1 =
        { id := 0, job_id := 9, keeper_address := "K", timestamp := 1,
          success := false, signature := none,
          error := some ("Simulation failed: Some(" ++ "AccountNotFound" ++ ")"),
          gas_used := some 0, fee_paid := some 0 } ∧
      failedExecutionsOn (updateKeeperStats [] 0 false 0) 0 =
        failedExecutionsOn [] 0 + 1 ∧
      successfulExecutionsOn (updateKeeperStats [] 0 false 0) 0 =
        successfulExecutionsOn [] 0) ∧
    (∀ e2, c7Env.simulate = .error e2 →
      executeJob c7Env c7Cfg =
        sendLoop c7Env c7Cfg 0 c7Cfg.max_retries none
          { sendAttempts := 0, sleeps := [] }) :=
  c7_simulation_failure c7Cfg c7Env [] 0 1 9 "K" "AccountNotFound" rfl rfl ⟨"bh", rfl⟩

/-- C8.  Any request that reaches the submit phase gets at most
`execution.max_retries` send attempts (for every environment); when every
attempt fails, exactly `max_retries` attempts are made, the sleeps between
consecutive attempts double from `retry_delay_ms`, and the recorded
`ExecutionRecord` is a failure carrying the rendered error of the final
attempt (no error at all when `max_retries = 0`, where no attempt exists). -/
theorem c8_submit_retries (cfg : ExecConfig) (env : ExecEnv) (errs : Nat → KeeperError)
    (jobId : Int) (keeper : String) (now : Int)
    (hbuild : env.buildInstruction = .ok ())
    (hbh : ∃ b, env.blockhash = .ok b)
    (hreach : cfg.simulation_enabled = false ∨ env.simulate = .ok { err := none } ∨
      ∃ e2, env.simulate = .error e2)
    (hfail : ∀ k, k < cfg.max_retries → env.send k = .error (errs k)) :
    (∀ env2 : ExecEnv, (executeJob env2 cfg).2.sendAttempts ≤ cfg.max_retries) ∧
    executeJob env cfg =
      ({ success := false, signature := none,
         error := if cfg.max_retries = 0 then none
           else some (errs (cfg.max_retries - 1)).toMessage,
         gas_used := 0, fee_paid := 0 },
       { sendAttempts := cfg.max_retries,
         sleeps := (List.range (cfg.max_retries - 1)).map
           (fun k => cfg.retry_delay_ms * 2 ^ k) }) ∧
    buildExecutionRecord jobId keeper (executeJob env cfg).1 now =
      { id := 0, job_id := jobId, keeper_address := keeper, timestamp := now,
        success := false, signature := none,
        error := if cfg.max_retries = 0 then none
          else some (errs (cfg.max_retries - 1)).toMessage,
        gas_used := some 0, fee_paid := some 0 } := by
  obtain ⟨b, hb⟩ := hbh
  have hstep : executeJob env cfg =
      sendLoop env cfg 0 cfg.max_retries none { sendAttempts := 0, sleeps := [] } := by
    unfold executeJob
    split
    · rename_i e heq
      rw [hbuild] at heq
      simp at heq
    · split
      · rename_i e heq
        rw [hb] at heq
        simp at heq
      · dsimp only
        rcases hreach with hsim | hsim | ⟨e2, hsim⟩
        · simp [hsim]
        · by_cases hse : cfg.simulation_enabled = true <;> simp [hse, hsim]
        · by_cases hse : cfg.simulation_enabled = true <;> simp [hse, hsim]
  have hmain : executeJob env cfg =
      ({ success := false, signature := none,
         error := if cfg.max_retries = 0 then none
           else some (errs (cfg.max_retries - 1)).toMessage,
         gas_used := 0, fee_paid := 0 },
       { sendAttempts := cfg.max_retries,
         sleeps := (List.range (cfg.max_retries - 1)).map
           (fun k => cfg.retry_delay_ms * 2 ^ k) }) := by
    rw [hstep, sendLoop_all_fail env cfg errs cfg.max_retries 0 none
      { sendAttempts := 0, sleeps := [] } (by omega) hfail]
    simp
  refine ⟨fun env2 => executeJob_attempts_le env2 cfg, hmain, ?_⟩
  rw [hmain]
  simp [buildExecutionRecord]

/-- C8 witness: simulation disabled, `max_retries = 3`, every send failing
— three attempts, sleeps 500 ms then 1000 ms, final error recorded. -/
theorem c8_submit_retries_witness :
    (∀ env2 : ExecEnv, (executeJob env2 c8Cfg).2.sendAttempts ≤ c8Cfg.max_retries) ∧
    executeJob c8Env c8Cfg =
      ({ success := false, signature := none,
         error := if c8Cfg.max_retries = 0 then none
           else some (c8Errs (c8Cfg.max_retries - 1)).toMessage,
         gas_used := 0, fee_paid := 0 },
       { sendAttempts := c8Cfg.max_retries,
         sleeps := (List.range (c8Cfg.max_retries - 1)).map
           (fun k => c8Cfg.retry_delay_ms * 2 ^ k) }) ∧
    buildExecutionRecord 9 "K" (executeJob c8Env c8Cfg).1 1 =
      { id := 0, job_id := 9, keeper_address := "K", timestamp := 1,
        success := false, signature := none,
        error := if c8Cfg.max_retries = 0 then none
          else some (c8Errs (c8Cfg.max_retries - 1)).toMessage,
        gas_used := some 0, fee_paid := some 0 } :=
  c8_submit_retries c8Cfg c8Env c8Errs 9 "K" 1 rfl ⟨"bh", rfl⟩ (Or.inl rfl)
    (fun _ _ => rfl)

/-! ## C9 — hybrid trigger -/

/-- C9.  For an active hybrid job with sufficient balance whose optional
custom condition evaluates without error, `evaluate_job` returns: the
conjunction of the sub-checks present among `time_interval`, `condition`,
`event_signature` (vacuously true when none is present), the
semicolon-joined sub-reasons in that order, and
`next_check_time = now + 30 s`. -/
theorem c9_hybrid_trigger (env : EvalEnv) (job : JobRecord) (now : Int)
    (cres : Option (Bool × String))
    (hact : job.is_active = true) (hbal : job.min_balance < job.balance)
    (htype : job.trigger_type = "hybrid")
    (hcond : condEval env job
      ((paramsGet job.trigger_params "condition").bind JsonVal.asStr) = .ok cres) :
    evaluateJob env job now =
      .ok { should_execute :=
              (((paramsGet job.trigger_params "time_interval").bind JsonVal.asI64).all
                (fun i => hybridTimeCheck job.last_executed now i)) &&
              (cres.all (fun r => r.1)) &&
              (((paramsGet job.trigger_params "event_signature").bind JsonVal.asStr).all
                (fun _ => hybridEventCheck job.last_executed now)),
            reason := String.intercalate "; "
              ((((paramsGet job.trigger_params "time_interval").bind JsonVal.asI64).map
                  (fun i => hybridTimeReason job.last_executed now i)).toList ++
               (cres.map (fun r => r.2)).toList ++
               (((paramsGet job.trigger_params "event_signature").bind JsonVal.asStr).map
                  (fun _ => hybridEventReason job.last_executed now)).toList),
            next_check_time := some (now + 30) } := by
  have h2 : ¬(job.balance ≤ job.min_balance) := not_le.mpr hbal
  unfold evaluateJob
  rw [htype]
  simp only [hact, Bool.not_true, Bool.false_eq_true, if_false, h2]
  cases hcc : (paramsGet job.trigger_params "condition").bind JsonVal.asStr with
  | none =>
    rw [hcc] at hcond
    simp only [condEval, Except.ok.injEq] at hcond
    subst hcond
    cases htci : (paramsGet job.trigger_params "time_interval").bind JsonVal.asI64 <;>
      cases hes : (paramsGet job.trigger_params "event_signature").bind JsonVal.asStr
    all_goals
      unfold evaluateHybridTrigger
    all_goals
      rw [hcc, htci, hes]
    all_goals
      cases hle : job.last_executed <;>
        simp [hybridTimeCheck, hybridTimeReason, hybridEventCheck, hybridEventReason,
          pure, Except.pure, bind, Except.bind] <;>
        try (split_ifs <;> simp_all)
  | some c =>
    rw [hcc] at hcond
    simp only [condEval, Except.map] at hcond
    cases hec : evaluateCondition env job c with
    | error e =>
      rw [hec] at hcond
      simp at hcond
    | ok r =>
      rw [hec] at hcond
      simp only [Except.ok.injEq] at hcond
      subst hcond
      cases htci : (paramsGet job.trigger_params "time_interval").bind JsonVal.asI64 <;>
        cases hes : (paramsGet job.trigger_params "event_signature").bind JsonVal.asStr
      all_goals
        unfold evaluateHybridTrigger
      all_goals
        rw [hcc, htci, hes]
      all_goals
        cases hle : job.last_executed <;>
          simp [hec, hybridTimeCheck, hybridTimeReason, hybridEventCheck, hybridEventReason,
            pure, Except.pure, bind, Except.bind] <;>
          try (split_ifs <;> simp_all)

/-- C9 witness: a hybrid job with all three sub-conditions present
(balance condition "balance > 5" satisfied by balance 1000, never
executed, now = 0). -/
theorem c9_hybrid_trigger_witness :
    evaluateJob trivialEvalEnv c9Job 0 =
      .ok { should_execute :=
              (((paramsGet c9Job.trigger_params "time_interval").bind JsonVal.asI64).all
                (fun i => hybridTimeCheck c9Job.last_executed 0 i)) &&
              ((some (true, "Balance 1000 > 5") : Option (Bool × String)).all
                (fun r => r.1)) &&
              (((paramsGet c9Job.trigger_params "event_signature").bind JsonVal.asStr).all
                (fun _ => hybridEventCheck c9Job.last_executed 0)),
            reason := String.intercalate "; "
              ((((paramsGet c9Job.trigger_params "time_interval").bind JsonVal.asI64).map
                  (fun i => hybridTimeReason c9Job.last_executed 0 i)).toList ++
               ((some (true, "Balance 1000 > 5") : Option (Bool × String)).map
                  (fun r => r.2)).toList ++
               (((paramsGet c9Job.trigger_params "event_signature").bind JsonVal.asStr).map
                  (fun _ => hybridEventReason c9Job.last_executed 0)).toList),
            next_check_time := some ((0 : Int) + 30) } :=
  c9_hybrid_trigger trivialEvalEnv c9Job 0 (some (true, "Balance 1000 > 5"))
    (by decide) (by decide) (by decide) (by decide)

end Solcron
